import Mathlib

/-!
Shallow embedding of `src/main.py` of the `wellProdInjAnalysis` dashboard.

Tables are embedded as lists of row records; pandas column operations become
per-row computations; the numpy random jitter draw becomes an explicit stream
of offset pairs `offs : Nat → ℚ × ℚ`, consumed in row order by the rows the
duplicate mask selects (mirroring `np.random.uniform(-0.0003, 0.0003,
size=dup_mask.sum())`).  Floating-point coordinates and volumes are modelled
as rationals.
-/

namespace WellProdInj

/-- A pandas cell as seen by Python `str()`: either a string value or the
missing marker (`NaN`). -/
inductive CellVal where
  | str (s : String)
  | na
deriving DecidableEq

/-- Python `str(x)`: a string is itself; `str(float("nan"))` is `"nan"`. -/
def pyStr : CellVal → String
  | .str s => s
  | .na => "nan"

/-- One row of the uploaded well list: `UWI`, `Longitude NAD 83`,
`Latitude NAD 83`, and the (optional-column) `Deviation Ind` cell. -/
structure WellRow where
  uwi : String
  lon : ℚ
  lat : ℚ
  devInd : CellVal
deriving DecidableEq

/-- The well-list table: its rows plus whether the optional column
`"Deviation Ind"` is present (`"Deviation Ind" in df.columns`). -/
structure WellList where
  rows : List WellRow
  hasDeviationInd : Bool
deriving DecidableEq

/-- One row of the production-history table. -/
structure ProdRow where
  uwi : String
  date : String
  oil : ℚ
  water : ℚ
  gas : ℚ
deriving DecidableEq

/-- One row of the injection-history table. -/
structure InjRow where
  uwi : String
  date : String
  waterInj : ℚ
deriving DecidableEq

/-- A row of the dataframe returned by `prepare_well_data`: the source columns
plus the derived columns `Well_Type`, `Deviation_Type`, `Well_ID`,
`plot_lon`, `plot_lat` (main.py lines 19-46). -/
structure PreparedRow where
  uwi : String
  lon : ℚ
  lat : ℚ
  devInd : CellVal
  well_Type : String
  deviation_Type : String
  well_ID : Nat
  plot_lon : ℚ
  plot_lat : ℚ
deriving DecidableEq

/-- main.py lines 22-24: `Well_Type` starts as `"Unknown"`, is overwritten to
`"Production"` for UWIs in the production table's `UWI` column, then
overwritten to `"Injection"` for UWIs in the injection table's `UWI` column
(`Series.isin` is membership in the column's values). -/
def classifyType (prodUWIs injUWIs : List String) (uwi : String) : String :=
  let t := "Unknown"
  let t := if uwi ∈ prodUWIs then "Production" else t
  if uwi ∈ injUWIs then "Injection" else t

/-- Python `str.strip()`: drop leading and trailing whitespace. -/
def pyStrip (s : String) : String :=
  ⟨((s.data.dropWhile Char.isWhitespace).reverse.dropWhile Char.isWhitespace).reverse⟩

/-- Python `str.upper()` on ASCII data: uppercase each character. -/
def pyUpper (s : String) : String :=
  ⟨s.data.map Char.toUpper⟩

/-- Does the first character list start with the second one? -/
def charsStart : List Char → List Char → Bool
  | _, [] => true
  | [], _ :: _ => false
  | c :: cs, p :: ps => p == c && charsStart cs ps

/-- Python `s.startswith(p)`. -/
def pyStartswith (s p : String) : Bool :=
  charsStart s.data p.data

/-- main.py lines 26-32: with the `"Deviation Ind"` column present each cell
is classified `"Horizontal"` when `str(x).strip().upper().startswith("H")`,
else `"Vertical"`; with the column absent every row gets `"Unknown"`.
(The data is ASCII, so per-character uppercasing matches Python.) -/
def deviationType (hasCol : Bool) (v : CellVal) : String :=
  if hasCol then
    if pyStartswith (pyUpper (pyStrip (pyStr v))) "H" then "Horizontal" else "Vertical"
  else "Unknown"

/-- main.py line 39: `df.duplicated(subset=["plot_lon", "plot_lat"],
keep=False)` marks a row iff its (lon, lat) pair occurs at least twice in the
table (at this point `plot_lon`/`plot_lat` still equal the source
coordinates). -/
def coordDup (allRows : List WellRow) (r : WellRow) : Bool :=
  decide (2 ≤ allRows.countP (fun s => decide (s.lon = r.lon ∧ s.lat = r.lat)))

/-- The net effect of main.py lines 20-41 on one well row: source columns are
kept; `Well_Type`, `Deviation_Type`, `Well_ID` are derived; `plot_lon`/
`plot_lat` copy the source coordinates and, when the row is in the duplicate
mask, add the next offsets of the two `np.random.uniform(-0.0003, 0.0003)`
draws (`k` is how many masked rows precede this one, i.e. its index into the
drawn offset arrays). -/
def mkRow (hasDev : Bool) (prodUWIs injUWIs : List String) (offs : Nat → ℚ × ℚ)
    (allRows : List WellRow) (r : WellRow) (idx k : Nat) : PreparedRow :=
  { uwi := r.uwi, lon := r.lon, lat := r.lat, devInd := r.devInd,
    well_Type := classifyType prodUWIs injUWIs r.uwi,
    deviation_Type := deviationType hasDev r.devInd,
    well_ID := idx + 1,
    plot_lon := if coordDup allRows r then r.lon + (offs k).1 else r.lon,
    plot_lat := if coordDup allRows r then r.lat + (offs k).2 else r.lat }

/-- Row-by-row construction of the prepared dataframe: `idx` is the 0-based
row position (`Well_ID = idx + 1`, main.py line 34), `k` counts the masked
rows already seen (their offset-array position, main.py lines 40-41). -/
def buildRows (hasDev : Bool) (prodUWIs injUWIs : List String)
    (offs : Nat → ℚ × ℚ) (allRows : List WellRow) :
    List WellRow → Nat → Nat → List PreparedRow
  | [], _, _ => []
  | r :: rest, idx, k =>
    mkRow hasDev prodUWIs injUWIs offs allRows r idx k ::
      buildRows hasDev prodUWIs injUWIs offs allRows rest (idx + 1)
        (if coordDup allRows r then k + 1 else k)

/-- The prepared dataframe before the optional `Unknown` filter
(main.py lines 20-41). -/
def prepareFull (wl : WellList) (prod : List ProdRow) (inj : List InjRow)
    (offs : Nat → ℚ × ℚ) : List PreparedRow :=
  buildRows wl.hasDeviationInd (prod.map (fun r => r.uwi))
    (inj.map (fun r => r.uwi)) offs wl.rows wl.rows 0 0

/-- main.py lines 19-46, `prepare_well_data`: build the derived columns, then
when `include_unknown` is false keep only the rows whose `Well_Type` is not
`"Unknown"` (lines 43-44). -/
def prepare_well_data (wl : WellList) (prod : List ProdRow) (inj : List InjRow)
    (include_unknown : Bool) (offs : Nat → ℚ × ℚ) : List PreparedRow :=
  let df := prepareFull wl prod inj offs
  if include_unknown then df else df.filter (fun r => r.well_Type != "Unknown")

/-- Kind of a plotly trace: `go.Bar` or `go.Scatter`. -/
inductive TraceKind where
  | bar
  | scatter
deriving DecidableEq

/-- A plotly trace as the builders configure it.  `x` carries the raw `Date`
strings of the selected rows: `pd.to_datetime(..., errors="coerce")` is an
element-wise, length-preserving reparse whose output the verified claims never
inspect beyond the number of points.  `lineColor`/`markerColor` model
`line=dict(color=c) if c else {}` (and likewise `marker=`). -/
structure Trace where
  kind : TraceKind
  x : List String
  y : List ℚ
  name : String
  yaxis : String
  mode : Option String
  lineColor : Option String
  markerColor : Option String
  opacity : Option ℚ
deriving DecidableEq

/-- One y-axis of the layout: its title and the endpoints of
`range=[0, max_val]`; `rangeHi = none` models a NaN `max_val`. -/
structure AxisSpec where
  title : String
  rangeLo : ℚ
  rangeHi : Option ℚ
deriving DecidableEq

/-- The parts of `fig.update_layout` the builders set. -/
structure Layout where
  title : String
  xaxisTitle : String
  yaxis : AxisSpec
  yaxis2 : AxisSpec
  barmode : Option String
deriving DecidableEq

/-- A figure: the traces in the order `add_trace` was called, plus layout. -/
structure Figure where
  traces : List Trace
  layout : Layout
deriving DecidableEq

/-- `pandas.Series.max`: `NaN` (here `none`) on an empty series, else the
greatest value. -/
def seriesMax : List ℚ → Option ℚ
  | [] => none
  | x :: xs => some (xs.foldl max x)

/-- Python's builtin `max` on two possibly-NaN floats: `max(a, b)` returns `b`
when `b > a` and otherwise `a`; every comparison against NaN is `False`, so
`max(a, nan) = a` and `max(nan, b) = nan`. -/
def pyMaxF : Option ℚ → Option ℚ → Option ℚ
  | a, none => a
  | none, some _ => none
  | some x, some y => some (max x y)

/-- `enumerate(lst)` followed by a per-index map, as in
`for i, well in enumerate(prod_wells): ...`. -/
def enumMap (f : Nat → α → β) : Nat → List α → List β
  | _, [] => []
  | i, a :: as => f i a :: enumMap f (i + 1) as

/-- main.py lines 93-100: one water-production bar per selected production
well, on the secondary axis. -/
def waterProdBar (prod_df : List ProdRow) (well : String) : Trace :=
  let data := prod_df.filter (fun r => r.uwi == well)
  { kind := .bar, x := data.map (fun r => r.date), y := data.map (fun r => r.water),
    name := "Water Production from well " ++ well, yaxis := "y2",
    mode := none, lineColor := none, markerColor := none, opacity := none }

/-- main.py lines 103-110 (also reused at lines 196-203): one water-injection
line per selected injection well, on the primary axis. -/
def injWaterLine (inj_df : List InjRow) (well : String) : Trace :=
  let data := inj_df.filter (fun r => r.uwi == well)
  { kind := .scatter, x := data.map (fun r => r.date), y := data.map (fun r => r.waterInj),
    name := "Water Injection into Well " ++ well, yaxis := "y",
    mode := some "lines+markers", lineColor := none, markerColor := none, opacity := none }

/-- main.py lines 112-117 (and the analogous blocks of the other inj/prod
builders): `max_val = 0`, then `max_val = max(max_val, series.max())` for the
production series when `prod_wells` is non-empty, then the same for the
injection series. -/
def sharedMaxVal (prodVals injVals : List ℚ) (prod_wells inj_wells : List String) :
    Option ℚ :=
  let m0 : Option ℚ := some 0
  let m1 := if prod_wells.isEmpty then m0 else pyMaxF m0 (seriesMax prodVals)
  if inj_wells.isEmpty then m1 else pyMaxF m1 (seriesMax injVals)

/-- main.py lines 89-126, `plot_water_inj_prod`: water-production bars
(secondary axis) vs water-injection lines (primary axis), both axes ranged
`[0, max_val]`, `barmode="overlay"`. -/
def plot_water_inj_prod (prod_df : List ProdRow) (inj_df : List InjRow)
    (prod_wells inj_wells : List String) : Figure :=
  let max_val := sharedMaxVal
    ((prod_df.filter (fun r => prod_wells.contains r.uwi)).map (fun r => r.water))
    ((inj_df.filter (fun r => inj_wells.contains r.uwi)).map (fun r => r.waterInj))
    prod_wells inj_wells
  { traces := prod_wells.map (waterProdBar prod_df) ++ inj_wells.map (injWaterLine inj_df),
    layout :=
      { title := "Water Injection vs Water Production History",
        xaxisTitle := "Date (month)",
        yaxis := { title := "Water Injection M3", rangeLo := 0, rangeHi := max_val },
        yaxis2 := { title := "Water Production M3", rangeLo := 0, rangeHi := max_val },
        barmode := some "overlay" } }

/-- main.py lines 135-146: one oil-production line per selected production
well, secondary axis, brown for the first selected well. -/
def oilInjLine (prod_df : List ProdRow) (i : Nat) (well : String) : Trace :=
  let data := prod_df.filter (fun r => r.uwi == well)
  { kind := .scatter, x := data.map (fun r => r.date), y := data.map (fun r => r.oil),
    name := "Oil Production from well " ++ well, yaxis := "y2",
    mode := some "lines+markers",
    lineColor := if i == 0 then some "brown" else none,
    markerColor := none, opacity := none }

/-- main.py lines 149-159: one water-injection line per selected injection
well, primary axis, blue for the first selected well. -/
def injWaterLineBlue (inj_df : List InjRow) (j : Nat) (well : String) : Trace :=
  let data := inj_df.filter (fun r => r.uwi == well)
  { kind := .scatter, x := data.map (fun r => r.date), y := data.map (fun r => r.waterInj),
    name := "Water Injection into Well " ++ well, yaxis := "y",
    mode := some "lines+markers",
    lineColor := if j == 0 then some "blue" else none,
    markerColor := none, opacity := none }

/-- main.py lines 131-174, `plot_oil_inj_prod`. -/
def plot_oil_inj_prod (prod_df : List ProdRow) (inj_df : List InjRow)
    (prod_wells inj_wells : List String) : Figure :=
  let max_val := sharedMaxVal
    ((prod_df.filter (fun r => prod_wells.contains r.uwi)).map (fun r => r.oil))
    ((inj_df.filter (fun r => inj_wells.contains r.uwi)).map (fun r => r.waterInj))
    prod_wells inj_wells
  { traces := enumMap (oilInjLine prod_df) 0 prod_wells ++
      enumMap (injWaterLineBlue inj_df) 0 inj_wells,
    layout :=
      { title := "Water Injection vs Oil Production History",
        xaxisTitle := "Date (month)",
        yaxis := { title := "Water Injection M3", rangeLo := 0, rangeHi := max_val },
        yaxis2 := { title := "Oil Production M3", rangeLo := 0, rangeHi := max_val },
        barmode := none } }

/-- main.py lines 183-193: one gas-production bar per selected production
well, secondary axis, green marker for the first selected well. -/
def gasInjBar (prod_df : List ProdRow) (i : Nat) (well : String) : Trace :=
  let data := prod_df.filter (fun r => r.uwi == well)
  { kind := .bar, x := data.map (fun r => r.date), y := data.map (fun r => r.gas),
    name := "Gas Production from well " ++ well, yaxis := "y2",
    mode := none, lineColor := none,
    markerColor := if i == 0 then some "green" else none, opacity := none }

/-- main.py lines 179-218, `plot_gas_inj_prod`. -/
def plot_gas_inj_prod (prod_df : List ProdRow) (inj_df : List InjRow)
    (prod_wells inj_wells : List String) : Figure :=
  let max_val := sharedMaxVal
    ((prod_df.filter (fun r => prod_wells.contains r.uwi)).map (fun r => r.gas))
    ((inj_df.filter (fun r => inj_wells.contains r.uwi)).map (fun r => r.waterInj))
    prod_wells inj_wells
  { traces := enumMap (gasInjBar prod_df) 0 prod_wells ++
      inj_wells.map (injWaterLine inj_df),
    layout :=
      { title := "Water Injection vs Gas Production History",
        xaxisTitle := "Date (month)",
        yaxis := { title := "Water Injection M3", rangeLo := 0, rangeHi := max_val },
        yaxis2 := { title := "Gas Production M3", rangeLo := 0, rangeHi := max_val },
        barmode := some "overlay" } }

/-- main.py lines 230-237: the oil line of one selected well, primary axis,
brown exactly when the selection has a single well (`len(prod_wells) == 1`). -/
def oilWaterLine (prod_df : List ProdRow) (nsel : Nat) (well : String) : Trace :=
  let data := prod_df.filter (fun r => r.uwi == well)
  { kind := .scatter, x := data.map (fun r => r.date), y := data.map (fun r => r.oil),
    name := "Oil Production " ++ well, yaxis := "y1",
    mode := some "lines+markers",
    lineColor := if nsel == 1 then some "brown" else none,
    markerColor := none, opacity := none }

/-- main.py lines 239-245 (also lines 282-288): the semi-transparent water bar
of one selected well, secondary axis. -/
def waterOverlayBar (prod_df : List ProdRow) (well : String) : Trace :=
  let data := prod_df.filter (fun r => r.uwi == well)
  { kind := .bar, x := data.map (fun r => r.date), y := data.map (fun r => r.water),
    name := "Water Production " ++ well, yaxis := "y2",
    mode := none, lineColor := none, markerColor := none, opacity := some (1/2) }

/-- main.py lines 247-252: `max_val = 0`, then when wells are selected
`max_val = max(seriesA.max(), seriesB.max())` (Python `max` of two possibly
NaN values, the initial 0 discarded). -/
def pairMaxVal (valsA valsB : List ℚ) (prod_wells : List String) : Option ℚ :=
  if prod_wells.isEmpty then some 0
  else pyMaxF (seriesMax valsA) (seriesMax valsB)

/-- main.py lines 223-261, `plot_oil_water_prod`: per selected well an oil
line then a water bar, both axes ranged `[0, max_val]`. -/
def plot_oil_water_prod (prod_df : List ProdRow) (prod_wells : List String) : Figure :=
  let max_val := pairMaxVal
    ((prod_df.filter (fun r => prod_wells.contains r.uwi)).map (fun r => r.oil))
    ((prod_df.filter (fun r => prod_wells.contains r.uwi)).map (fun r => r.water))
    prod_wells
  { traces := prod_wells.flatMap (fun well =>
      [oilWaterLine prod_df prod_wells.length well, waterOverlayBar prod_df well]),
    layout :=
      { title := "Oil vs Water Production History",
        xaxisTitle := "Date (month)",
        yaxis := { title := "Oil Production M3", rangeLo := 0, rangeHi := max_val },
        yaxis2 := { title := "Water Production M3", rangeLo := 0, rangeHi := max_val },
        barmode := some "overlay" } }

/-- main.py lines 273-280: the gas line of one selected well, primary axis,
green for the first selected well. -/
def gasWaterLine (prod_df : List ProdRow) (i : Nat) (well : String) : Trace :=
  let data := prod_df.filter (fun r => r.uwi == well)
  { kind := .scatter, x := data.map (fun r => r.date), y := data.map (fun r => r.gas),
    name := "Gas Production " ++ well, yaxis := "y1",
    mode := some "lines+markers",
    lineColor := if i == 0 then some "green" else none,
    markerColor := none, opacity := none }

/-- main.py lines 266-304, `plot_gas_water_prod`: per selected well a gas
line then a water bar. -/
def plot_gas_water_prod (prod_df : List ProdRow) (prod_wells : List String) : Figure :=
  let max_val := pairMaxVal
    ((prod_df.filter (fun r => prod_wells.contains r.uwi)).map (fun r => r.gas))
    ((prod_df.filter (fun r => prod_wells.contains r.uwi)).map (fun r => r.water))
    prod_wells
  { traces := (enumMap (fun i well =>
      [gasWaterLine prod_df i well, waterOverlayBar prod_df well]) 0 prod_wells).flatten,
    layout :=
      { title := "Gas vs Water Production History",
        xaxisTitle := "Date (month)",
        yaxis := { title := "Gas Production M3", rangeLo := 0, rangeHi := max_val },
        yaxis2 := { title := "Water Production M3", rangeLo := 0, rangeHi := max_val },
        barmode := some "overlay" } }

/-! ### Structural lemmas about the classifier pipeline -/

theorem buildRows_length (hasDev : Bool) (p i : List String) (offs : Nat → ℚ × ℚ)
    (allRows : List WellRow) :
    ∀ (l : List WellRow) (idx k : Nat),
      (buildRows hasDev p i offs allRows l idx k).length = l.length := by
  intro l
  induction l with
  | nil => intro idx k; rfl
  | cons r rest ih => intro idx k; simp [buildRows, ih]

theorem buildRows_get (hasDev : Bool) (p i : List String) (offs : Nat → ℚ × ℚ)
    (allRows : List WellRow) :
    ∀ (l : List WellRow) (idx k j : Nat) (hj : j < l.length),
      (buildRows hasDev p i offs allRows l idx k).get
          ⟨j, by rw [buildRows_length]; exact hj⟩ =
        mkRow hasDev p i offs allRows (l.get ⟨j, hj⟩) (idx + j)
          (k + (l.take j).countP (coordDup allRows)) := by
  intro l
  induction l with
  | nil => intro idx k j hj; exact absurd hj (by simp)
  | cons r rest ih =>
    intro idx k j hj
    cases j with
    | zero => simp [buildRows]
    | succ j =>
      have hj' : j < rest.length := Nat.lt_of_succ_lt_succ hj
      have := ih (idx + 1) (if coordDup allRows r then k + 1 else k) j hj'
      simp only [buildRows, List.get_cons_succ, this, List.take_succ_cons,
        List.countP_cons]
      congr 1
      · omega
      · by_cases h : coordDup allRows r = true
        · simp [h]; omega
        · simp [h]

theorem buildRows_mem (hasDev : Bool) (p i : List String) (offs : Nat → ℚ × ℚ)
    (allRows : List WellRow) :
    ∀ (l : List WellRow) (idx k : Nat) (pr : PreparedRow),
      pr ∈ buildRows hasDev p i offs allRows l idx k →
      ∃ r ∈ l, ∃ j kk, pr = mkRow hasDev p i offs allRows r j kk := by
  intro l
  induction l with
  | nil => intro idx k pr h; exact absurd h (by simp [buildRows])
  | cons r rest ih =>
    intro idx k pr h
    rcases List.mem_cons.mp h with h0 | h1
    · exact ⟨r, List.mem_cons_self r rest, idx, k, h0⟩
    · rcases ih _ _ _ h1 with ⟨r', hr', j, kk, hpr⟩
      exact ⟨r', List.mem_cons_of_mem _ hr', j, kk, hpr⟩

theorem mem_buildRows_of_mem (hasDev : Bool) (p i : List String) (offs : Nat → ℚ × ℚ)
    (allRows : List WellRow) :
    ∀ (l : List WellRow) (idx k : Nat) (r : WellRow), r ∈ l →
      ∃ j kk, mkRow hasDev p i offs allRows r j kk ∈
        buildRows hasDev p i offs allRows l idx k := by
  intro l
  induction l with
  | nil => intro idx k r h; exact absurd h (by simp)
  | cons a rest ih =>
    intro idx k r h
    rcases List.mem_cons.mp h with h0 | h1
    · exact ⟨idx, k, by rw [h0]; exact List.mem_cons_self _ _⟩
    · rcases ih (idx + 1) (if coordDup allRows a then k + 1 else k) r h1 with ⟨j, kk, hm⟩
      exact ⟨j, kk, List.mem_cons_of_mem _ hm⟩

theorem buildRows_map_wellID (hasDev : Bool) (p i : List String) (offs : Nat → ℚ × ℚ)
    (allRows : List WellRow) :
    ∀ (l : List WellRow) (idx k : Nat),
      (buildRows hasDev p i offs allRows l idx k).map (fun pr => pr.well_ID) =
        List.range' (idx + 1) l.length := by
  intro l
  induction l with
  | nil => intro idx k; rfl
  | cons r rest ih =>
    intro idx k
    simp [buildRows, mkRow, ih, List.range'_succ]

theorem buildRows_countP_type (hasDev : Bool) (p i : List String) (offs : Nat → ℚ × ℚ)
    (allRows : List WellRow) (q : String → Bool) :
    ∀ (l : List WellRow) (idx k : Nat),
      (buildRows hasDev p i offs allRows l idx k).countP (fun pr => q pr.well_Type) =
        l.countP (fun r => q (classifyType p i r.uwi)) := by
  intro l
  induction l with
  | nil => intro idx k; rfl
  | cons r rest ih =>
    intro idx k
    simp [buildRows, List.countP_cons, ih, mkRow]

/-- Lines 43-44: the `include_unknown = false` output is the filtered
`include_unknown = true` output. -/
theorem prepare_false_eq_filter (wl : WellList) (prod : List ProdRow)
    (inj : List InjRow) (offs : Nat → ℚ × ℚ) :
    prepare_well_data wl prod inj false offs =
      (prepare_well_data wl prod inj true offs).filter
        (fun r => r.well_Type != "Unknown") := by
  rfl

/-- Any output row of `prepare_well_data` is an output row of the unfiltered
pipeline. -/
theorem mem_prepareFull_of_mem (wl : WellList) (prod : List ProdRow)
    (inj : List InjRow) (inc : Bool) (offs : Nat → ℚ × ℚ) (pr : PreparedRow)
    (h : pr ∈ prepare_well_data wl prod inj inc offs) :
    pr ∈ prepareFull wl prod inj offs := by
  cases inc with
  | true => exact h
  | false => exact List.mem_of_mem_filter h

/-! ### Concrete tables used by the witnesses -/

/-- A degenerate offset stream: every jitter draw is `0.0` (a possible value
of `np.random.uniform(-0.0003, 0.0003)`). -/
def offs0 : Nat → ℚ × ℚ := fun _ => (0, 0)

/-- A small well list: `"200"` appears in both history tables below, `"100"`
only in production, `"300"` in neither; all coordinates distinct. -/
def wlA : WellList :=
  { rows := [ { uwi := "100", lon := -80, lat := 53, devInd := .str "HZ" },
              { uwi := "200", lon := -81, lat := 54, devInd := .na },
              { uwi := "300", lon := -82, lat := 55, devInd := .str "V" } ],
    hasDeviationInd := true }

def prodA : List ProdRow :=
  [ { uwi := "100", date := "2020-01-01", oil := 10, water := 5, gas := 2 },
    { uwi := "100", date := "2020-02-01", oil := 20, water := 7, gas := 3 },
    { uwi := "200", date := "2020-01-01", oil := 1, water := 2, gas := 1 } ]

def injA : List InjRow :=
  [ { uwi := "200", date := "2020-01-01", waterInj := 15 } ]

/-! ### C1 -/

/-- C1: a well-list row whose UWI is in both the production and the injection
UWI sets ends up with `Well_Type = "Injection"` (the injection overwrite pass
of line 24 runs after the production pass of line 23), and such a row is never
dropped by the `Unknown` filter. -/
theorem injection_overrides_production (wl : WellList) (prod : List ProdRow)
    (inj : List InjRow) (inc : Bool) (offs : Nat → ℚ × ℚ) :
    (∀ pr ∈ prepare_well_data wl prod inj inc offs,
        pr.uwi ∈ prod.map (fun q => q.uwi) → pr.uwi ∈ inj.map (fun q => q.uwi) →
        pr.well_Type = "Injection") ∧
    (∀ r ∈ wl.rows,
        r.uwi ∈ prod.map (fun q => q.uwi) → r.uwi ∈ inj.map (fun q => q.uwi) →
        ∃ pr ∈ prepare_well_data wl prod inj inc offs,
          pr.uwi = r.uwi ∧ pr.well_Type = "Injection") := by
  constructor
  · intro pr hpr hp hi
    have hfull := mem_prepareFull_of_mem wl prod inj inc offs pr hpr
    unfold prepareFull at hfull
    obtain ⟨r, hr, j, kk, rfl⟩ := buildRows_mem _ _ _ _ _ _ _ _ _ hfull
    simp only [mkRow] at hi ⊢
    simp [classifyType, hi]
  · intro r hr hp hi
    obtain ⟨j, kk, hm⟩ := mem_buildRows_of_mem wl.hasDeviationInd
      (prod.map (fun q => q.uwi)) (inj.map (fun q => q.uwi)) offs wl.rows
      wl.rows 0 0 r hr
    refine ⟨mkRow wl.hasDeviationInd (prod.map (fun q => q.uwi))
      (inj.map (fun q => q.uwi)) offs wl.rows r j kk, ?_, by simp [mkRow],
      by simp [mkRow, classifyType, hi]⟩
    cases inc with
    | true => exact hm
    | false =>
      exact List.mem_filter.mpr ⟨hm, by simp [mkRow, classifyType, hi]⟩

/-- C1 witness: in `wlA`, UWI `"200"` is in both tables and comes out
`"Injection"`. -/
theorem injection_overrides_production_witness :
    ((prepare_well_data wlA prodA injA true offs0).get ⟨1, by decide⟩).well_Type
        = "Injection" ∧
    (∃ pr ∈ prepare_well_data wlA prodA injA true offs0,
        pr.uwi = (wlA.rows.get ⟨1, by decide⟩).uwi ∧ pr.well_Type = "Injection") := by
  refine ⟨?_, ?_⟩
  · exact (injection_overrides_production wlA prodA injA true offs0).1 _
      (List.get_mem _ 1 (by decide)) (by decide) (by decide)
  · exact (injection_overrides_production wlA prodA injA true offs0).2 _
      (List.get_mem _ 1 (by decide)) (by decide) (by decide)

/-! ### C2 -/

/-- C2: before any `Unknown` filtering the `Well_ID` column is exactly
`1, 2, ..., N` in row order, and the `include_unknown = false` output is a
sublist of the unfiltered output (surviving rows keep their records, hence
their already-assigned IDs — no renumbering). -/
theorem well_ID_sequence (wl : WellList) (prod : List ProdRow) (inj : List InjRow)
    (offs : Nat → ℚ × ℚ) :
    ((prepare_well_data wl prod inj true offs).map (fun pr => pr.well_ID) =
        List.range' 1 wl.rows.length) ∧
    (prepare_well_data wl prod inj false offs).Sublist
      (prepare_well_data wl prod inj true offs) := by
  constructor
  · have h := buildRows_map_wellID wl.hasDeviationInd
      (prod.map (fun q => q.uwi)) (inj.map (fun q => q.uwi)) offs wl.rows
      wl.rows 0 0
    simpa [prepare_well_data, prepareFull] using h
  · rw [prepare_false_eq_filter]
    exact List.filter_sublist _

/-! ### C3 -/

/-- C3: `Deviation_Type` is `"Horizontal"` iff the column is present and the
stringified cell, trimmed and upper-cased, starts with `"H"`; with the column
present a non-`"H"` cell gives exactly `"Vertical"`; and it is `"Unknown"` iff
the column is absent. -/
theorem deviation_rule (wl : WellList) (prod : List ProdRow) (inj : List InjRow)
    (offs : Nat → ℚ × ℚ) :
    ∀ pr ∈ prepare_well_data wl prod inj true offs,
      (pr.deviation_Type = "Horizontal" ↔
        (wl.hasDeviationInd = true ∧
          (pyStartswith (pyUpper (pyStrip (pyStr pr.devInd))) "H") = true)) ∧
      (wl.hasDeviationInd = true →
        (pr.deviation_Type = "Vertical" ↔
          (pyStartswith (pyUpper (pyStrip (pyStr pr.devInd))) "H") = false)) ∧
      (pr.deviation_Type = "Unknown" ↔ wl.hasDeviationInd = false) := by
  intro pr hpr
  have hfull := mem_prepareFull_of_mem wl prod inj true offs pr hpr
  unfold prepareFull at hfull
  obtain ⟨r, hr, j, kk, rfl⟩ := buildRows_mem _ _ _ _ _ _ _ _ _ hfull
  simp only [mkRow]
  cases hD : wl.hasDeviationInd with
  | false => simp [deviationType]
  | true =>
    cases hS : pyStartswith (pyUpper (pyStrip (pyStr r.devInd))) "H" with
    | false => simp [deviationType, hS]
    | true => simp [deviationType, hS]

/-- C3 witness: the `"HZ"` cell of `wlA`'s first row comes out
`"Horizontal"`. -/
theorem deviation_rule_witness :
    ((prepare_well_data wlA prodA injA true offs0).get ⟨0, by decide⟩).deviation_Type
      = "Horizontal" := by
  exact ((deviation_rule wlA prodA injA offs0 _ (List.get_mem _ 0 (by decide))).1).mpr
    ⟨rfl, by decide⟩

/-! ### C4 -/

/-- C4: with `include_unknown = false` the output row count equals the number
of input rows whose derived `Well_Type` is not `"Unknown"`. -/
theorem filtered_length_eq_count (wl : WellList) (prod : List ProdRow)
    (inj : List InjRow) (offs : Nat → ℚ × ℚ) :
    (prepare_well_data wl prod inj false offs).length =
      wl.rows.countP (fun r =>
        classifyType (prod.map (fun q => q.uwi)) (inj.map (fun q => q.uwi)) r.uwi
          != "Unknown") := by
  rw [prepare_false_eq_filter, ← List.countP_eq_length_filter]
  have h := buildRows_countP_type wl.hasDeviationInd
    (prod.map (fun q => q.uwi)) (inj.map (fun q => q.uwi)) offs wl.rows
    (fun s => s != "Unknown") wl.rows 0 0
  simpa [prepare_well_data, prepareFull] using h

/-! ### C6 -/

/-- C6: a row whose (longitude, latitude) pair occurs only once in the well
list is left with `plot_lon`/`plot_lat` equal to its source coordinates. -/
theorem unique_coords_unjittered (wl : WellList) (prod : List ProdRow)
    (inj : List InjRow) (inc : Bool) (offs : Nat → ℚ × ℚ) :
    ∀ pr ∈ prepare_well_data wl prod inj inc offs,
      wl.rows.countP (fun s => decide (s.lon = pr.lon ∧ s.lat = pr.lat)) ≤ 1 →
      pr.plot_lon = pr.lon ∧ pr.plot_lat = pr.lat := by
  intro pr hpr hcount
  have hfull := mem_prepareFull_of_mem wl prod inj inc offs pr hpr
  unfold prepareFull at hfull
  obtain ⟨r, hr, j, kk, rfl⟩ := buildRows_mem _ _ _ _ _ _ _ _ _ hfull
  simp only [mkRow] at hcount ⊢
  have hdup : coordDup wl.rows r = false := by
    simp only [coordDup, decide_eq_false_iff_not]
    omega
  simp [hdup]

/-- C6 witness: all three coordinates of `wlA` are distinct, so row 0 keeps
its source coordinates. -/
theorem unique_coords_unjittered_witness :
    ((prepare_well_data wlA prodA injA true offs0).get ⟨0, by decide⟩).plot_lon =
      ((prepare_well_data wlA prodA injA true offs0).get ⟨0, by decide⟩).lon ∧
    ((prepare_well_data wlA prodA injA true offs0).get ⟨0, by decide⟩).plot_lat =
      ((prepare_well_data wlA prodA injA true offs0).get ⟨0, by decide⟩).lat := by
  exact unique_coords_unjittered wlA prodA injA true offs0 _
    (List.get_mem _ 0 (by decide)) (by decide)

/-! ### C10 -/

/-- C10: with the `"Deviation Ind"` column present every row is classified
`"Horizontal"` or `"Vertical"`, never `"Unknown"`; a missing cell is
stringified to `"nan"` and falls to `"Vertical"`. -/
theorem deviation_present_no_unknown (wl : WellList) (prod : List ProdRow)
    (inj : List InjRow) (inc : Bool) (offs : Nat → ℚ × ℚ)
    (hD : wl.hasDeviationInd = true) :
    ∀ pr ∈ prepare_well_data wl prod inj inc offs,
      (pr.deviation_Type = "Horizontal" ∨ pr.deviation_Type = "Vertical") ∧
      (pr.devInd = CellVal.na → pr.deviation_Type = "Vertical") := by
  intro pr hpr
  have hfull := mem_prepareFull_of_mem wl prod inj inc offs pr hpr
  unfold prepareFull at hfull
  obtain ⟨r, hr, j, kk, rfl⟩ := buildRows_mem _ _ _ _ _ _ _ _ _ hfull
  simp only [mkRow, deviationType, hD, if_true]
  constructor
  · by_cases hS : pyStartswith (pyUpper (pyStrip (pyStr r.devInd))) "H" = true
    · left; simp [hS]
    · right; simp [hS]
  · intro hna
    rw [hna]
    decide

/-- C10 witness: `wlA`'s second row has a missing deviation cell and comes
out `"Vertical"`. -/
theorem deviation_present_no_unknown_witness :
    ((prepare_well_data wlA prodA injA true offs0).get ⟨1, by decide⟩).deviation_Type
      = "Vertical" := by
  exact (deviation_present_no_unknown wlA prodA injA true offs0 rfl _
    (List.get_mem _ 1 (by decide))).2 (by decide)

/-! ### C5: the coordinate jitter -/

theorem two_le_countP_of_lt {α : Type} (p : α → Bool) :
    ∀ (l : List α) (j j' : Nat) (hj : j < l.length) (hj' : j' < l.length),
      j < j' → p (l.get ⟨j, hj⟩) = true → p (l.get ⟨j', hj'⟩) = true →
      2 ≤ l.countP p := by
  intro l
  induction l with
  | nil => intro j j' hj; simp at hj
  | cons a t ih =>
    intro j j' hj hj' hlt h1 h2
    cases j with
    | zero =>
      cases j' with
      | zero => omega
      | succ m =>
        have hm : m < t.length := Nat.lt_of_succ_lt_succ hj'
        have h2' : p (t.get ⟨m, hm⟩) = true := h2
        have hpos : 0 < t.countP p :=
          List.countP_pos_iff.mpr ⟨_, List.get_mem t m hm, h2'⟩
        have h1' : p a = true := h1
        rw [List.countP_cons_of_pos _ _ h1']
        omega
    | succ m =>
      cases j' with
      | zero => omega
      | succ m' =>
        have hm : m < t.length := Nat.lt_of_succ_lt_succ hj
        have hm' : m' < t.length := Nat.lt_of_succ_lt_succ hj'
        have := ih m m' hm hm' (by omega) h1 h2
        rw [List.countP_cons]
        omega

theorem countP_take_succ {α : Type} (l : List α) (p : α → Bool) (j : Nat)
    (hj : j < l.length) :
    (l.take (j + 1)).countP p =
      (l.take j).countP p + (if p (l.get ⟨j, hj⟩) then 1 else 0) := by
  rw [List.take_succ, List.countP_append]
  congr 1
  rw [List.getElem?_eq_getElem hj]
  simp [List.countP_cons, List.get_eq_getElem]

theorem countP_take_mono {α : Type} (l : List α) (p : α → Bool) {a b : Nat}
    (h : a ≤ b) :
    (l.take a).countP p ≤ (l.take b).countP p := by
  have he : l.take a = (l.take b).take a := by
    rw [List.take_take, Nat.min_eq_left h]
  rw [he]
  exact (List.take_sublist _ _).countP_le p

/-- Both members of a coordinate-duplicate pair are marked by
`df.duplicated(keep=False)`. -/
theorem coordDup_of_pair (l : List WellRow) (j j' : Nat) (hj : j < l.length)
    (hj' : j' < l.length) (hne : j ≠ j')
    (hlon : (l.get ⟨j, hj⟩).lon = (l.get ⟨j', hj'⟩).lon)
    (hlat : (l.get ⟨j, hj⟩).lat = (l.get ⟨j', hj'⟩).lat) :
    coordDup l (l.get ⟨j, hj⟩) = true := by
  rw [coordDup, decide_eq_true_iff]
  rcases Nat.lt_or_ge j j' with hlt | hge
  · exact two_le_countP_of_lt _ l j j' hj hj' hlt (by simp)
      (by simp only [decide_eq_true_eq]; exact ⟨hlon.symm, hlat.symm⟩)
  · have hlt' : j' < j := by omega
    exact two_le_countP_of_lt _ l j' j hj' hj hlt'
      (by simp only [decide_eq_true_eq]; exact ⟨hlon.symm, hlat.symm⟩) (by simp)

/-- The jitter-array position of a masked row is strictly monotone in the row
position: an earlier masked row consumes an earlier offset. -/
theorem jitter_index_lt (l : List WellRow) (j j' : Nat) (hj : j < l.length)
    (hlt : j < j') (hdup : coordDup l (l.get ⟨j, hj⟩) = true) :
    (l.take j).countP (coordDup l) < (l.take j').countP (coordDup l) := by
  have h1 : (l.take (j + 1)).countP (coordDup l) =
      (l.take j).countP (coordDup l) + 1 := by
    rw [countP_take_succ l _ j hj, hdup]
    simp
  have h2 : (l.take (j + 1)).countP (coordDup l) ≤
      (l.take j').countP (coordDup l) :=
    countP_take_mono l _ hlt
  omega

/-- C5 (amended): provided every drawn offset is non-zero and distinct draws
give distinct offsets (an event of probability ≈ 1 for the uniform draw, but
not guaranteed: see the counterexample), any two rows sharing identical
(longitude, latitude) both get display coordinates that differ from the
un-jittered source coordinates and from each other, each coordinate moved by
at most 0.0003 degrees; every member of a duplicate group is jittered. -/
theorem dup_coords_jitter_amended (wl : WellList) (prod : List ProdRow)
    (inj : List InjRow) (offs : Nat → ℚ × ℚ)
    (hmag : ∀ k, |(offs k).1| ≤ 3/10000 ∧ |(offs k).2| ≤ 3/10000)
    (hnz : ∀ k, (offs k).1 ≠ 0 ∧ (offs k).2 ≠ 0)
    (hne : ∀ k k', k ≠ k' → (offs k).1 ≠ (offs k').1 ∧ (offs k).2 ≠ (offs k').2) :
    ∀ (j j' : Nat) (hj : j < wl.rows.length) (hj' : j' < wl.rows.length)
      (hjo : j < (prepare_well_data wl prod inj true offs).length)
      (hjo' : j' < (prepare_well_data wl prod inj true offs).length),
      j ≠ j' →
      (wl.rows.get ⟨j, hj⟩).lon = (wl.rows.get ⟨j', hj'⟩).lon →
      (wl.rows.get ⟨j, hj⟩).lat = (wl.rows.get ⟨j', hj'⟩).lat →
      (((prepare_well_data wl prod inj true offs).get ⟨j, hjo⟩).plot_lon ≠
          ((prepare_well_data wl prod inj true offs).get ⟨j, hjo⟩).lon ∧
        ((prepare_well_data wl prod inj true offs).get ⟨j, hjo⟩).plot_lat ≠
          ((prepare_well_data wl prod inj true offs).get ⟨j, hjo⟩).lat ∧
        ((prepare_well_data wl prod inj true offs).get ⟨j', hjo'⟩).plot_lon ≠
          ((prepare_well_data wl prod inj true offs).get ⟨j', hjo'⟩).lon ∧
        ((prepare_well_data wl prod inj true offs).get ⟨j', hjo'⟩).plot_lat ≠
          ((prepare_well_data wl prod inj true offs).get ⟨j', hjo'⟩).lat ∧
        ((prepare_well_data wl prod inj true offs).get ⟨j, hjo⟩).plot_lon ≠
          ((prepare_well_data wl prod inj true offs).get ⟨j', hjo'⟩).plot_lon ∧
        ((prepare_well_data wl prod inj true offs).get ⟨j, hjo⟩).plot_lat ≠
          ((prepare_well_data wl prod inj true offs).get ⟨j', hjo'⟩).plot_lat ∧
        |((prepare_well_data wl prod inj true offs).get ⟨j, hjo⟩).plot_lon -
          ((prepare_well_data wl prod inj true offs).get ⟨j, hjo⟩).lon| ≤ 3/10000 ∧
        |((prepare_well_data wl prod inj true offs).get ⟨j, hjo⟩).plot_lat -
          ((prepare_well_data wl prod inj true offs).get ⟨j, hjo⟩).lat| ≤ 3/10000 ∧
        |((prepare_well_data wl prod inj true offs).get ⟨j', hjo'⟩).plot_lon -
          ((prepare_well_data wl prod inj true offs).get ⟨j', hjo'⟩).lon| ≤ 3/10000 ∧
        |((prepare_well_data wl prod inj true offs).get ⟨j', hjo'⟩).plot_lat -
          ((prepare_well_data wl prod inj true offs).get ⟨j', hjo'⟩).lat| ≤ 3/10000) := by
  intro j j' hj hj' hjo hjo' hjne hlon hlat
  have hA : (prepare_well_data wl prod inj true offs).get ⟨j, hjo⟩ =
      mkRow wl.hasDeviationInd (prod.map (fun q => q.uwi))
        (inj.map (fun q => q.uwi)) offs wl.rows (wl.rows.get ⟨j, hj⟩) (0 + j)
        (0 + (wl.rows.take j).countP (coordDup wl.rows)) :=
    buildRows_get wl.hasDeviationInd _ _ offs wl.rows wl.rows 0 0 j hj
  have hB : (prepare_well_data wl prod inj true offs).get ⟨j', hjo'⟩ =
      mkRow wl.hasDeviationInd (prod.map (fun q => q.uwi))
        (inj.map (fun q => q.uwi)) offs wl.rows (wl.rows.get ⟨j', hj'⟩) (0 + j')
        (0 + (wl.rows.take j').countP (coordDup wl.rows)) :=
    buildRows_get wl.hasDeviationInd _ _ offs wl.rows wl.rows 0 0 j' hj'
  have hdupA : coordDup wl.rows (wl.rows.get ⟨j, hj⟩) = true :=
    coordDup_of_pair wl.rows j j' hj hj' hjne hlon hlat
  have hdupB : coordDup wl.rows (wl.rows.get ⟨j', hj'⟩) = true :=
    coordDup_of_pair wl.rows j' j hj' hj (fun h => hjne h.symm) hlon.symm hlat.symm
  set kA := (wl.rows.take j).countP (coordDup wl.rows) with hkA
  set kB := (wl.rows.take j').countP (coordDup wl.rows) with hkB
  have hkne : kA ≠ kB := by
    rcases Nat.lt_or_ge j j' with hlt | hge
    · exact Nat.ne_of_lt (jitter_index_lt wl.rows j j' hj hlt hdupA)
    · have hlt : j' < j := by omega
      exact (Nat.ne_of_lt (jitter_index_lt wl.rows j' j hj' hlt hdupB)).symm
  rw [hA, hB]
  simp only [mkRow, hdupA, hdupB, if_true, Nat.zero_add]
  have hoff := hne kA kB hkne
  have hmagA := hmag kA
  have hmagB := hmag kB
  have hnzA := hnz kA
  have hnzB := hnz kB
  refine ⟨?_, ?_, ?_, ?_, ?_, ?_, ?_, ?_, ?_, ?_⟩
  · simp [add_right_eq_self, hnzA.1]
  · simp [add_right_eq_self, hnzA.2]
  · simp [add_right_eq_self, hnzB.1]
  · simp [add_right_eq_self, hnzB.2]
  · rw [hlon]; simp [hoff.1]
  · rw [hlat]; simp [hoff.2]
  · simpa using hmagA.1
  · simpa using hmagA.2
  · simpa using hmagB.1
  · simpa using hmagB.2

/-- Two wells at exactly the same location: the duplicate mask marks both. -/
def wlDup : WellList :=
  { rows := [ { uwi := "W1", lon := -80, lat := 53, devInd := .na },
              { uwi := "W2", lon := -80, lat := 53, devInd := .na } ],
    hasDeviationInd := false }

/-- C5 counterexample: the all-zero draw is a possible value of
`np.random.uniform(-0.0003, 0.0003)`, and under it both duplicate-coordinate
rows keep exactly the source display coordinates, equal to each other — the
claim's unconditional "both differ from the source and from each other" is
false. -/
theorem dup_coords_jitter_counterexample :
    (wlDup.rows.get ⟨0, by decide⟩).lon = (wlDup.rows.get ⟨1, by decide⟩).lon ∧
    (wlDup.rows.get ⟨0, by decide⟩).lat = (wlDup.rows.get ⟨1, by decide⟩).lat ∧
    ((prepare_well_data wlDup [] [] true offs0).map
        (fun r => (r.plot_lon, r.plot_lat)) = [(-80, 53), (-80, 53)]) := by
  refine ⟨rfl, rfl, ?_⟩
  norm_num [prepare_well_data, prepareFull, buildRows, mkRow, coordDup, wlDup,
    offs0, List.countP_cons]

/-- A concrete admissible offset stream: strictly decreasing positive offsets
`3 / (10000 * (k + 1))`, all within the uniform draw's support. -/
def ofsW (k : Nat) : ℚ := 3 / (10000 * ((k : ℚ) + 1))

def offsW (k : Nat) : ℚ × ℚ := (ofsW k, ofsW k)

theorem ofsW_pos (k : Nat) : 0 < ofsW k := by
  rw [ofsW]
  positivity

theorem ofsW_le (k : Nat) : ofsW k ≤ 3 / 10000 := by
  rw [ofsW, div_le_div_iff₀ (by positivity) (by norm_num)]
  have h : (0 : ℚ) ≤ (k : ℚ) := Nat.cast_nonneg k
  nlinarith

theorem ofsW_inj {k k' : Nat} (h : k ≠ k') : ofsW k ≠ ofsW k' := by
  intro he
  apply h
  have hk : (0 : ℚ) < 10000 * ((k : ℚ) + 1) := by positivity
  have hk' : (0 : ℚ) < 10000 * ((k' : ℚ) + 1) := by positivity
  rw [ofsW, ofsW, div_eq_div_iff hk.ne' hk'.ne'] at he
  have : (k : ℚ) = (k' : ℚ) := by linarith
  exact_mod_cast this

def outW : List PreparedRow := prepare_well_data wlDup [] [] true offsW

def rowW0 : PreparedRow := outW.get ⟨0, by decide⟩

def rowW1 : PreparedRow := outW.get ⟨1, by decide⟩

/-- C5 (amended) witness: both rows of `wlDup`, under the admissible stream
`offsW`, are moved off the source coordinates, differ from each other, and
stay within 0.0003 degrees. -/
theorem dup_coords_jitter_amended_witness :
    rowW0.plot_lon ≠ rowW0.lon ∧ rowW0.plot_lat ≠ rowW0.lat ∧
    rowW1.plot_lon ≠ rowW1.lon ∧ rowW1.plot_lat ≠ rowW1.lat ∧
    rowW0.plot_lon ≠ rowW1.plot_lon ∧ rowW0.plot_lat ≠ rowW1.plot_lat ∧
    |rowW0.plot_lon - rowW0.lon| ≤ 3/10000 ∧
    |rowW0.plot_lat - rowW0.lat| ≤ 3/10000 ∧
    |rowW1.plot_lon - rowW1.lon| ≤ 3/10000 ∧
    |rowW1.plot_lat - rowW1.lat| ≤ 3/10000 := by
  have hmag : ∀ k, |(offsW k).1| ≤ 3/10000 ∧ |(offsW k).2| ≤ 3/10000 := by
    intro k
    constructor <;>
      simpa [offsW, abs_of_pos (ofsW_pos k)] using ofsW_le k
  have hnz : ∀ k, (offsW k).1 ≠ 0 ∧ (offsW k).2 ≠ 0 := by
    intro k
    constructor <;> exact ne_of_gt (ofsW_pos k)
  have hne : ∀ k k', k ≠ k' →
      (offsW k).1 ≠ (offsW k').1 ∧ (offsW k).2 ≠ (offsW k').2 := by
    intro k k' hkk
    constructor <;> exact ofsW_inj hkk
  exact dup_coords_jitter_amended wlDup [] [] offsW hmag hnz hne 0 1
    (by decide) (by decide) (by decide) (by decide) (by decide) rfl rfl

/-! ### Helper lemmas about the chart builders -/

theorem prodFilter_nil (df : List ProdRow) (w : String)
    (h : ∀ r ∈ df, r.uwi ≠ w) :
    df.filter (fun r => r.uwi == w) = [] := by
  rw [List.filter_eq_nil_iff]
  intro r hr
  simp [h r hr]

theorem injFilter_nil (df : List InjRow) (w : String)
    (h : ∀ r ∈ df, r.uwi ≠ w) :
    df.filter (fun r => r.uwi == w) = [] := by
  rw [List.filter_eq_nil_iff]
  intro r hr
  simp [h r hr]

theorem enumMap_length {α β : Type} (f : Nat → α → β) :
    ∀ (l : List α) (i : Nat), (enumMap f i l).length = l.length := by
  intro l
  induction l with
  | nil => intro i; rfl
  | cons a t ih => intro i; simp [enumMap, ih]

theorem enumMap_mem {α β : Type} (f : Nat → α → β) (a : α) :
    ∀ (l : List α) (i : Nat), a ∈ l → ∃ j, f j a ∈ enumMap f i l := by
  intro l
  induction l with
  | nil => intro i h; simp at h
  | cons b t ih =>
    intro i h
    rcases List.mem_cons.mp h with h0 | h1
    · exact ⟨i, by rw [h0]; exact List.mem_cons_self _ _⟩
    · rcases ih (i + 1) h1 with ⟨j, hj⟩
      exact ⟨j, List.mem_cons_of_mem _ hj⟩

/-! ### C7 -/

/-- C7: every chart builder, given a selected well identifier absent from the
corresponding source table, still produces its figure and that figure contains
the well's trace with an empty series (no data points) — no validation, no
error. -/
theorem absent_well_empty_trace (prod_df : List ProdRow) (inj_df : List InjRow)
    (prod_wells inj_wells : List String) (w : String) :
    (w ∈ prod_wells → (∀ r ∈ prod_df, r.uwi ≠ w) →
      ∃ t ∈ (plot_water_inj_prod prod_df inj_df prod_wells inj_wells).traces,
        t.name = "Water Production from well " ++ w ∧ t.x = [] ∧ t.y = []) ∧
    (w ∈ inj_wells → (∀ r ∈ inj_df, r.uwi ≠ w) →
      ∃ t ∈ (plot_water_inj_prod prod_df inj_df prod_wells inj_wells).traces,
        t.name = "Water Injection into Well " ++ w ∧ t.x = [] ∧ t.y = []) ∧
    (w ∈ prod_wells → (∀ r ∈ prod_df, r.uwi ≠ w) →
      ∃ t ∈ (plot_oil_inj_prod prod_df inj_df prod_wells inj_wells).traces,
        t.name = "Oil Production from well " ++ w ∧ t.x = [] ∧ t.y = []) ∧
    (w ∈ inj_wells → (∀ r ∈ inj_df, r.uwi ≠ w) →
      ∃ t ∈ (plot_oil_inj_prod prod_df inj_df prod_wells inj_wells).traces,
        t.name = "Water Injection into Well " ++ w ∧ t.x = [] ∧ t.y = []) ∧
    (w ∈ prod_wells → (∀ r ∈ prod_df, r.uwi ≠ w) →
      ∃ t ∈ (plot_gas_inj_prod prod_df inj_df prod_wells inj_wells).traces,
        t.name = "Gas Production from well " ++ w ∧ t.x = [] ∧ t.y = []) ∧
    (w ∈ inj_wells → (∀ r ∈ inj_df, r.uwi ≠ w) →
      ∃ t ∈ (plot_gas_inj_prod prod_df inj_df prod_wells inj_wells).traces,
        t.name = "Water Injection into Well " ++ w ∧ t.x = [] ∧ t.y = []) ∧
    (w ∈ prod_wells → (∀ r ∈ prod_df, r.uwi ≠ w) →
      ∃ t ∈ (plot_oil_water_prod prod_df prod_wells).traces,
        t.name = "Oil Production " ++ w ∧ t.x = [] ∧ t.y = []) ∧
    (w ∈ prod_wells → (∀ r ∈ prod_df, r.uwi ≠ w) →
      ∃ t ∈ (plot_gas_water_prod prod_df prod_wells).traces,
        t.name = "Gas Production " ++ w ∧ t.x = [] ∧ t.y = []) := by
  refine ⟨?_, ?_, ?_, ?_, ?_, ?_, ?_, ?_⟩
  · intro hw habs
    refine ⟨waterProdBar prod_df w, ?_, ?_, ?_, ?_⟩
    · simp only [plot_water_inj_prod]
      exact List.mem_append_left _ (List.mem_map_of_mem _ hw)
    · rfl
    · simp [waterProdBar, prodFilter_nil prod_df w habs]
    · simp [waterProdBar, prodFilter_nil prod_df w habs]
  · intro hw habs
    refine ⟨injWaterLine inj_df w, ?_, ?_, ?_, ?_⟩
    · simp only [plot_water_inj_prod]
      exact List.mem_append_right _ (List.mem_map_of_mem _ hw)
    · rfl
    · simp [injWaterLine, injFilter_nil inj_df w habs]
    · simp [injWaterLine, injFilter_nil inj_df w habs]
  · intro hw habs
    obtain ⟨i, hi⟩ := enumMap_mem (oilInjLine prod_df) w prod_wells 0 hw
    refine ⟨oilInjLine prod_df i w, ?_, ?_, ?_, ?_⟩
    · simp only [plot_oil_inj_prod]
      exact List.mem_append_left _ hi
    · rfl
    · simp [oilInjLine, prodFilter_nil prod_df w habs]
    · simp [oilInjLine, prodFilter_nil prod_df w habs]
  · intro hw habs
    obtain ⟨i, hi⟩ := enumMap_mem (injWaterLineBlue inj_df) w inj_wells 0 hw
    refine ⟨injWaterLineBlue inj_df i w, ?_, ?_, ?_, ?_⟩
    · simp only [plot_oil_inj_prod]
      exact List.mem_append_right _ hi
    · rfl
    · simp [injWaterLineBlue, injFilter_nil inj_df w habs]
    · simp [injWaterLineBlue, injFilter_nil inj_df w habs]
  · intro hw habs
    obtain ⟨i, hi⟩ := enumMap_mem (gasInjBar prod_df) w prod_wells 0 hw
    refine ⟨gasInjBar prod_df i w, ?_, ?_, ?_, ?_⟩
    · simp only [plot_gas_inj_prod]
      exact List.mem_append_left _ hi
    · rfl
    · simp [gasInjBar, prodFilter_nil prod_df w habs]
    · simp [gasInjBar, prodFilter_nil prod_df w habs]
  · intro hw habs
    refine ⟨injWaterLine inj_df w, ?_, ?_, ?_, ?_⟩
    · simp only [plot_gas_inj_prod]
      exact List.mem_append_right _ (List.mem_map_of_mem _ hw)
    · rfl
    · simp [injWaterLine, injFilter_nil inj_df w habs]
    · simp [injWaterLine, injFilter_nil inj_df w habs]
  · intro hw habs
    refine ⟨oilWaterLine prod_df prod_wells.length w, ?_, ?_, ?_, ?_⟩
    · simp only [plot_oil_water_prod]
      exact List.mem_flatMap.mpr ⟨w, hw, List.mem_cons_self _ _⟩
    · rfl
    · simp [oilWaterLine, prodFilter_nil prod_df w habs]
    · simp [oilWaterLine, prodFilter_nil prod_df w habs]
  · intro hw habs
    obtain ⟨i, hi⟩ := enumMap_mem
      (fun i well => [gasWaterLine prod_df i well, waterOverlayBar prod_df well])
      w prod_wells 0 hw
    refine ⟨gasWaterLine prod_df i w, ?_, ?_, ?_, ?_⟩
    · simp only [plot_gas_water_prod]
      exact List.mem_flatten.mpr ⟨_, hi, List.mem_cons_self _ _⟩
    · rfl
    · simp [gasWaterLine, prodFilter_nil prod_df w habs]
    · simp [gasWaterLine, prodFilter_nil prod_df w habs]

/-- C7 witness: selecting UWI `"999"`, present in neither table, gives every
builder an empty trace for it. -/
theorem absent_well_empty_trace_witness :
    (∃ t ∈ (plot_water_inj_prod prodA injA ["999"] ["999"]).traces,
        t.name = "Water Production from well " ++ "999" ∧ t.x = [] ∧ t.y = []) ∧
    (∃ t ∈ (plot_water_inj_prod prodA injA ["999"] ["999"]).traces,
        t.name = "Water Injection into Well " ++ "999" ∧ t.x = [] ∧ t.y = []) ∧
    (∃ t ∈ (plot_oil_inj_prod prodA injA ["999"] ["999"]).traces,
        t.name = "Oil Production from well " ++ "999" ∧ t.x = [] ∧ t.y = []) ∧
    (∃ t ∈ (plot_oil_inj_prod prodA injA ["999"] ["999"]).traces,
        t.name = "Water Injection into Well " ++ "999" ∧ t.x = [] ∧ t.y = []) ∧
    (∃ t ∈ (plot_gas_inj_prod prodA injA ["999"] ["999"]).traces,
        t.name = "Gas Production from well " ++ "999" ∧ t.x = [] ∧ t.y = []) ∧
    (∃ t ∈ (plot_gas_inj_prod prodA injA ["999"] ["999"]).traces,
        t.name = "Water Injection into Well " ++ "999" ∧ t.x = [] ∧ t.y = []) ∧
    (∃ t ∈ (plot_oil_water_prod prodA ["999"]).traces,
        t.name = "Oil Production " ++ "999" ∧ t.x = [] ∧ t.y = []) ∧
    (∃ t ∈ (plot_gas_water_prod prodA ["999"]).traces,
        t.name = "Gas Production " ++ "999" ∧ t.x = [] ∧ t.y = []) := by
  have h := absent_well_empty_trace prodA injA ["999"] ["999"] "999"
  have hwp : "999" ∈ ["999"] := List.mem_singleton.mpr rfl
  have hap : ∀ r ∈ prodA, r.uwi ≠ "999" := by decide
  have hai : ∀ r ∈ injA, r.uwi ≠ "999" := by decide
  exact ⟨h.1 hwp hap, h.2.1 hwp hai, h.2.2.1 hwp hap, h.2.2.2.1 hwp hai,
    h.2.2.2.2.1 hwp hap, h.2.2.2.2.2.1 hwp hai, h.2.2.2.2.2.2.1 hwp hap,
    h.2.2.2.2.2.2.2 hwp hap⟩

/-! ### C8 -/

theorem foldl_max_shift (l : List ℚ) :
    ∀ a x : ℚ, l.foldl max (max a x) = max a (l.foldl max x) := by
  induction l with
  | nil => intro a x; rfl
  | cons y t ih =>
    intro a x
    rw [List.foldl_cons, List.foldl_cons,
      show max (max a x) y = max a (max x y) from max_assoc a x y]
    exact ih a (max x y)

theorem pyMaxF_seriesMax (a : ℚ) (l : List ℚ) :
    pyMaxF (some a) (seriesMax l) = some (l.foldl max a) := by
  cases l with
  | nil => rfl
  | cons x xs =>
    simp only [seriesMax, pyMaxF, List.foldl_cons]
    rw [foldl_max_shift]

theorem sharedMaxVal_eq (prodVals injVals : List ℚ) (pw iw : List String)
    (hp : pw.isEmpty = true → prodVals = [])
    (hi : iw.isEmpty = true → injVals = []) :
    sharedMaxVal prodVals injVals pw iw =
      some ((prodVals ++ injVals).foldl max 0) := by
  unfold sharedMaxVal
  by_cases hpw : pw.isEmpty
  · rw [hp hpw]
    by_cases hiw : iw.isEmpty
    · rw [hi hiw]
      simp [hpw, hiw]
    · simp [hpw, hiw, pyMaxF_seriesMax]
  · by_cases hiw : iw.isEmpty
    · rw [hi hiw]
      simp [hpw, hiw, pyMaxF_seriesMax]
    · simp [hpw, hiw, pyMaxF_seriesMax, List.foldl_append]

theorem filter_contains_nil_prod (df : List ProdRow) (pw : List String)
    (h : pw.isEmpty = true) :
    df.filter (fun r => pw.contains r.uwi) = [] := by
  rw [List.isEmpty_iff.mp h]
  simp

theorem filter_contains_nil_inj (df : List InjRow) (iw : List String)
    (h : iw.isEmpty = true) :
    df.filter (fun r => iw.contains r.uwi) = [] := by
  rw [List.isEmpty_iff.mp h]
  simp

theorem le_foldl_max (l : List ℚ) :
    ∀ a : ℚ, a ≤ l.foldl max a ∧ ∀ v ∈ l, v ≤ l.foldl max a := by
  induction l with
  | nil => intro a; exact ⟨le_refl a, by simp⟩
  | cons x t ih =>
    intro a
    rcases ih (max a x) with ⟨h1, h2⟩
    refine ⟨le_trans (le_max_left a x) h1, ?_⟩
    intro v hv
    rcases List.mem_cons.mp hv with rfl | hvt
    · exact le_trans (le_max_right a v) h1
    · exact h2 v hvt

theorem foldl_max_mem (l : List ℚ) :
    ∀ a : ℚ, l.foldl max a = a ∨ l.foldl max a ∈ l := by
  induction l with
  | nil => intro a; left; rfl
  | cons x t ih =>
    intro a
    rcases ih (max a x) with h | h
    · rcases max_choice a x with hc | hc
      · left; rw [List.foldl_cons, h, hc]
      · right; rw [List.foldl_cons, h, hc]; exact List.mem_cons_self _ _
    · right
      rw [List.foldl_cons]
      exact List.mem_cons_of_mem _ h

theorem foldl_max_zero_is_max (l : List ℚ) (hne : l ≠ [])
    (hnn : ∀ v ∈ l, 0 ≤ v) :
    l.foldl max 0 ∈ l ∧ ∀ v ∈ l, v ≤ l.foldl max 0 := by
  rcases foldl_max_mem l 0 with h | h
  · cases l with
    | nil => exact absurd rfl hne
    | cons x t =>
      have hx : x ≤ (x :: t).foldl max 0 :=
        (le_foldl_max (x :: t) 0).2 x (List.mem_cons_self _ _)
      have h0 : (0 : ℚ) ≤ x := hnn x (List.mem_cons_self _ _)
      have hx0 : x = 0 := le_antisymm (h ▸ hx) h0
      exact ⟨by rw [h, ← hx0]; exact List.mem_cons_self _ _,
        (le_foldl_max (x :: t) 0).2⟩
  · exact ⟨h, (le_foldl_max l 0).2⟩

/-- The values the water builder's `max_val` ranges over: `Water M3` of the
production rows of selected wells plus `Water Inj M3` of the injection rows of
selected wells. -/
def waterRangeVals (prod_df : List ProdRow) (inj_df : List InjRow)
    (pw iw : List String) : List ℚ :=
  (prod_df.filter (fun r => pw.contains r.uwi)).map (fun r => r.water) ++
    (inj_df.filter (fun r => iw.contains r.uwi)).map (fun r => r.waterInj)

/-- Likewise for the gas builder: `Gas E3M3` plus `Water Inj M3`. -/
def gasRangeVals (prod_df : List ProdRow) (inj_df : List InjRow)
    (pw iw : List String) : List ℚ :=
  (prod_df.filter (fun r => pw.contains r.uwi)).map (fun r => r.gas) ++
    (inj_df.filter (fun r => iw.contains r.uwi)).map (fun r => r.waterInj)

/-- C8: in `plot_water_inj_prod` and `plot_gas_inj_prod` both y-axes get the
same range `[0, m]`, where `m` folds `max` over all the selected wells'
relevant series values (so for a non-empty, non-negative value set `m` is
exactly its maximum). -/
theorem shared_axis_range (prod_df : List ProdRow) (inj_df : List InjRow)
    (prod_wells inj_wells : List String) :
    ((plot_water_inj_prod prod_df inj_df prod_wells inj_wells).layout.yaxis.rangeLo = 0 ∧
      (plot_water_inj_prod prod_df inj_df prod_wells inj_wells).layout.yaxis2.rangeLo = 0 ∧
      (plot_water_inj_prod prod_df inj_df prod_wells inj_wells).layout.yaxis.rangeHi =
        some ((waterRangeVals prod_df inj_df prod_wells inj_wells).foldl max 0) ∧
      (plot_water_inj_prod prod_df inj_df prod_wells inj_wells).layout.yaxis2.rangeHi =
        some ((waterRangeVals prod_df inj_df prod_wells inj_wells).foldl max 0)) ∧
    ((plot_gas_inj_prod prod_df inj_df prod_wells inj_wells).layout.yaxis.rangeLo = 0 ∧
      (plot_gas_inj_prod prod_df inj_df prod_wells inj_wells).layout.yaxis2.rangeLo = 0 ∧
      (plot_gas_inj_prod prod_df inj_df prod_wells inj_wells).layout.yaxis.rangeHi =
        some ((gasRangeVals prod_df inj_df prod_wells inj_wells).foldl max 0) ∧
      (plot_gas_inj_prod prod_df inj_df prod_wells inj_wells).layout.yaxis2.rangeHi =
        some ((gasRangeVals prod_df inj_df prod_wells inj_wells).foldl max 0)) ∧
    (waterRangeVals prod_df inj_df prod_wells inj_wells ≠ [] →
      (∀ v ∈ waterRangeVals prod_df inj_df prod_wells inj_wells, 0 ≤ v) →
      (waterRangeVals prod_df inj_df prod_wells inj_wells).foldl max 0 ∈
          waterRangeVals prod_df inj_df prod_wells inj_wells ∧
        ∀ v ∈ waterRangeVals prod_df inj_df prod_wells inj_wells,
          v ≤ (waterRangeVals prod_df inj_df prod_wells inj_wells).foldl max 0) ∧
    (gasRangeVals prod_df inj_df prod_wells inj_wells ≠ [] →
      (∀ v ∈ gasRangeVals prod_df inj_df prod_wells inj_wells, 0 ≤ v) →
      (gasRangeVals prod_df inj_df prod_wells inj_wells).foldl max 0 ∈
          gasRangeVals prod_df inj_df prod_wells inj_wells ∧
        ∀ v ∈ gasRangeVals prod_df inj_df prod_wells inj_wells,
          v ≤ (gasRangeVals prod_df inj_df prod_wells inj_wells).foldl max 0) := by
  have hw := sharedMaxVal_eq
    ((prod_df.filter (fun r => prod_wells.contains r.uwi)).map (fun r => r.water))
    ((inj_df.filter (fun r => inj_wells.contains r.uwi)).map (fun r => r.waterInj))
    prod_wells inj_wells
    (fun h => by rw [filter_contains_nil_prod prod_df prod_wells h]; rfl)
    (fun h => by rw [filter_contains_nil_inj inj_df inj_wells h]; rfl)
  have hg := sharedMaxVal_eq
    ((prod_df.filter (fun r => prod_wells.contains r.uwi)).map (fun r => r.gas))
    ((inj_df.filter (fun r => inj_wells.contains r.uwi)).map (fun r => r.waterInj))
    prod_wells inj_wells
    (fun h => by rw [filter_contains_nil_prod prod_df prod_wells h]; rfl)
    (fun h => by rw [filter_contains_nil_inj inj_df inj_wells h]; rfl)
  refine ⟨⟨rfl, rfl, ?_, ?_⟩, ⟨rfl, rfl, ?_, ?_⟩, ?_, ?_⟩
  · simpa [plot_water_inj_prod, waterRangeVals] using hw
  · simpa [plot_water_inj_prod, waterRangeVals] using hw
  · simpa [plot_gas_inj_prod, gasRangeVals] using hg
  · simpa [plot_gas_inj_prod, gasRangeVals] using hg
  · exact foldl_max_zero_is_max _
  · exact foldl_max_zero_is_max _

/-- C8 witness: selecting production well `"100"` and injection well `"200"`
of the concrete tables, the shared range is `[0, 15]` and `15` is one of the
selected series values. -/
theorem shared_axis_range_witness :
    (plot_water_inj_prod prodA injA ["100"] ["200"]).layout.yaxis.rangeHi = some 15 ∧
    (plot_water_inj_prod prodA injA ["100"] ["200"]).layout.yaxis2.rangeHi = some 15 ∧
    (15 : ℚ) ∈ waterRangeVals prodA injA ["100"] ["200"] := by
  have h := shared_axis_range prodA injA ["100"] ["200"]
  have hvals : waterRangeVals prodA injA ["100"] ["200"] = [5, 7, 15] := by decide
  have hmax : (waterRangeVals prodA injA ["100"] ["200"]).foldl max 0 = 15 := by
    rw [hvals]
    norm_num [List.foldl, max_def]
  have hne : waterRangeVals prodA injA ["100"] ["200"] ≠ [] := by
    rw [hvals]; simp
  have hnn : ∀ v ∈ waterRangeVals prodA injA ["100"] ["200"], 0 ≤ v := by
    rw [hvals]
    intro v hv
    simp only [List.mem_cons, List.not_mem_nil, or_false] at hv
    rcases hv with rfl | rfl | rfl <;> norm_num
  refine ⟨?_, ?_, ?_⟩
  · have := h.1.2.2.1; rw [hmax] at this; exact this
  · have := h.1.2.2.2; rw [hmax] at this; exact this
  · have := (h.2.2.1 hne hnn).1; rw [hmax] at this; exact this

/-! ### C9 -/

theorem flatMap_pair_length {α β : Type} (f g : α → β) :
    ∀ l : List α, (l.flatMap fun a => [f a, g a]).length = 2 * l.length := by
  intro l
  induction l with
  | nil => rfl
  | cons a t ih =>
    simp only [List.flatMap_cons, List.length_append, List.length_cons,
      List.length_nil, List.length_flatMap, ih]
    omega

theorem flatMap_pair_get {α β : Type} (f g : α → β) :
    ∀ (l : List α) (j : Nat) (hj : j < l.length),
      (l.flatMap fun a => [f a, g a]).get? (2 * j) = some (f (l.get ⟨j, hj⟩)) ∧
      (l.flatMap fun a => [f a, g a]).get? (2 * j + 1) = some (g (l.get ⟨j, hj⟩)) := by
  intro l
  induction l with
  | nil => intro j hj; simp at hj
  | cons a t ih =>
    intro j hj
    cases j with
    | zero => simp [List.flatMap_cons]
    | succ m =>
      have hm : m < t.length := Nat.lt_of_succ_lt_succ hj
      have hih := ih m hm
      constructor
      · rw [show 2 * (m + 1) = 2 * m + 1 + 1 by omega]
        simpa [List.flatMap_cons] using hih.1
      · rw [show 2 * (m + 1) + 1 = 2 * m + 1 + 1 + 1 by omega]
        simpa [List.flatMap_cons] using hih.2

/-- C9: `plot_oil_water_prod` adds, per selected well in selection order, one
oil line (primary axis) then one water bar (secondary axis), and the oil line
is brown exactly when a single well is selected. -/
theorem oil_water_trace_structure (prod_df : List ProdRow) (prod_wells : List String) :
    ((plot_oil_water_prod prod_df prod_wells).traces.length = 2 * prod_wells.length) ∧
    (∀ (j : Nat) (hj : j < prod_wells.length),
      ∃ tO tW,
        (plot_oil_water_prod prod_df prod_wells).traces.get? (2 * j) = some tO ∧
        (plot_oil_water_prod prod_df prod_wells).traces.get? (2 * j + 1) = some tW ∧
        tO.kind = TraceKind.scatter ∧ tO.yaxis = "y1" ∧
        tO.name = "Oil Production " ++ prod_wells.get ⟨j, hj⟩ ∧
        tO.mode = some "lines+markers" ∧
        (tO.lineColor = some "brown" ↔ prod_wells.length = 1) ∧
        tW.kind = TraceKind.bar ∧ tW.yaxis = "y2" ∧
        tW.name = "Water Production " ++ prod_wells.get ⟨j, hj⟩ ∧
        tW.opacity = some (1/2)) := by
  constructor
  · simp only [plot_oil_water_prod]
    exact flatMap_pair_length _ _ prod_wells
  · intro j hj
    have hp := flatMap_pair_get (oilWaterLine prod_df prod_wells.length)
      (waterOverlayBar prod_df) prod_wells j hj
    refine ⟨oilWaterLine prod_df prod_wells.length (prod_wells.get ⟨j, hj⟩),
      waterOverlayBar prod_df (prod_wells.get ⟨j, hj⟩),
      ?_, ?_, rfl, rfl, rfl, rfl, ?_, rfl, rfl, rfl, rfl⟩
    · simp only [plot_oil_water_prod]
      exact hp.1
    · simp only [plot_oil_water_prod]
      exact hp.2
    · by_cases h1 : prod_wells.length = 1 <;> simp [oilWaterLine, h1]

/-- C9 witness: the spec's example — one selected well `"100"` with two dates
gives exactly one brown oil line and one water bar. -/
theorem oil_water_trace_structure_witness :
    ((plot_oil_water_prod prodA ["100"]).traces.length = 2) ∧
    (∃ tO tW,
      (plot_oil_water_prod prodA ["100"]).traces.get? 0 = some tO ∧
      (plot_oil_water_prod prodA ["100"]).traces.get? 1 = some tW ∧
      tO.kind = TraceKind.scatter ∧ tO.yaxis = "y1" ∧
      tO.name = "Oil Production " ++ "100" ∧ tO.mode = some "lines+markers" ∧
      tO.lineColor = some "brown" ∧
      tW.kind = TraceKind.bar ∧ tW.yaxis = "y2" ∧
      tW.name = "Water Production " ++ "100" ∧ tW.opacity = some (1/2)) := by
  have h := oil_water_trace_structure prodA ["100"]
  refine ⟨h.1, ?_⟩
  obtain ⟨tO, tW, h1, h2, h3, h4, h5, h6, h7, h8, h9, h10, h11⟩ :=
    h.2 0 (by decide)
  exact ⟨tO, tW, h1, h2, h3, h4, h5, h6, h7.mpr rfl, h8, h9, h10, h11⟩

end WellProdInj
